import Mathlib

/-!
Shallow embedding of the vue-zheye centralized store (src/store/index.ts,
second, canonical version: the one with the `isLoaded` and `loadedColumns`
tracking flags).

Modelling conventions:
* a JavaScript string-keyed object is an association list with first-match
  lookup and in-place-update insertion, which reproduces JS key iteration
  order (insertion order, existing keys keep their slot);
* the HTTP layer is external: each action receives the outcome of its remote
  call as an `Except AxiosErr payload` argument and records the list of
  request URLs it actually issues; the request method and body are transport
  details no store behaviour depends on;
* the ambient effects the mutations touch (the localStorage token slot and
  the axios default Authorization header) are carried alongside the vuex
  state in `StoreWorld`.
-/

namespace VueZheye

structure AxiosErr where
  message : String
deriving Repr, DecidableEq

structure ImageProps where
  _id : Option String := none
  url : Option String := none
  createdAt : Option String := none
  fitUrl : Option String := none
deriving Repr, DecidableEq

structure UserProps where
  isLogin : Bool
  nickName : Option String := none
  _id : Option String := none
  column : Option String := none
  email : Option String := none
  avatar : Option ImageProps := none
  description : Option String := none
deriving Repr, DecidableEq

structure ColumnProps where
  _id : String
  title : String
  avatar : Option ImageProps := none
  description : String
deriving Repr, DecidableEq

structure PostProps where
  _id : Option String := none
  title : String
  excerpt : Option String := none
  content : Option String := none
  image : Option (ImageProps ⊕ String) := none
  createdAt : Option String := none
  column : String
  author : Option (String ⊕ UserProps) := none
deriving Repr, DecidableEq

structure GlobalErrorProps where
  status : Bool
  message : Option String := none
deriving Repr, DecidableEq

/-- The server response envelope; mutations only consume `data`. -/
structure ResponseType (P : Type) where
  code : Nat
  msg : String
  data : P
deriving Repr, DecidableEq

/-- Body of `GET /columns?...`: the mutation consumes only `data.list`. -/
structure ColumnListData where
  list : List ColumnProps
deriving Repr, DecidableEq

/-- Body of `GET /columns/:cid/posts`: the mutation consumes only `data.list`. -/
structure PostListData where
  list : List PostProps
deriving Repr, DecidableEq

/-- Body of `POST /user/login`. -/
structure LoginData where
  token : String
deriving Repr, DecidableEq

/-- Body of `GET /user/current`: the server-side user fields spread over
`isLogin: true` by the `fetchCurrentUser` mutation. -/
structure CurrentUserData where
  nickName : Option String := none
  _id : Option String := none
  column : Option String := none
  email : Option String := none
  avatar : Option ImageProps := none
  description : Option String := none
deriving Repr, DecidableEq

/-- First-match lookup in a JS object, `undefined` encoded as `none`. -/
def getKey {α : Type} : List (String × α) → String → Option α
  | [], _ => none
  | (k', v) :: rest, k => if k' = k then some v else getKey rest k

/-- JS object assignment `m[k] = v`: an existing key keeps its iteration slot,
a fresh key is appended. -/
def setKey {α : Type} : List (String × α) → String → α → List (String × α)
  | [], k, v => [(k, v)]
  | (k', v') :: rest, k, v =>
    if k' = k then (k, v) :: rest else (k', v') :: setKey rest k v

/-- JS `delete m[k]`. -/
def delKey {α : Type} (m : List (String × α)) (k : String) : List (String × α) :=
  m.filter (fun kv => kv.1 != k)

/-- A JS object index coerces `undefined` to the string key "undefined"; posts
are stored under their optional `_id` field. -/
def jsKey : Option String → String
  | some s => s
  | none => "undefined"

/-- One reduce step of the post instance of `arrToObj`: store the entry under
its `_id`, skipping entries without one. -/
def postStep (prev : List (String × PostProps)) (cur : PostProps) :
    List (String × PostProps) :=
  match cur._id with
  | some i => setKey prev i cur
  | none => prev

/-- Modelled from the spec: `arrToObj` lives in src/helper.ts, which is not
under src/. The spec states the caches are "a mapping from id to Post" with
"cache keys equal the entity's id", so the server list is folded left into the
object, each entry stored under its `_id`; an entry without an `_id` has no
key to satisfy that with and is skipped. -/
def arrToObjPosts (arr : List PostProps) : List (String × PostProps) :=
  arr.foldl postStep []

/-- One reduce step of the column instance of `arrToObj`; a column's `_id` is
a required field. -/
def colStep (prev : List (String × ColumnProps)) (cur : ColumnProps) :
    List (String × ColumnProps) :=
  setKey prev cur._id cur

/-- Modelled from the spec: the column instance of `arrToObj` (src/helper.ts
is not under src/). -/
def arrToObjColumns (arr : List ColumnProps) : List (String × ColumnProps) :=
  arr.foldl colStep []

/-- The ids carried by a server post list. -/
def idsOf (arr : List PostProps) : List String :=
  arr.filterMap (fun p => p._id)

/-- Modelled from the spec: `objToArr` from src/helper.ts, the values of the
object in key iteration order ("column cache as an ordered list, order =
object key iteration order"). -/
def objToArr {α : Type} (m : List (String × α)) : List α :=
  m.map (fun kv => kv.2)

/-- The object spread `{...old, ...new}` on two objects: every key of the new
object is written over the old object in turn. -/
def mergeObj {α : Type} (old upd : List (String × α)) : List (String × α) :=
  upd.foldl (fun m kv => setKey m kv.1 kv.2) old

structure ColumnsSlice where
  data : List (String × ColumnProps)
  isLoaded : Bool
deriving Repr, DecidableEq

structure PostsSlice where
  data : List (String × PostProps)
  loadedColumns : List String
deriving Repr, DecidableEq

structure GlobalDataProps where
  token : String
  error : GlobalErrorProps
  loading : Bool
  columns : ColumnsSlice
  posts : PostsSlice
  user : UserProps
deriving Repr, DecidableEq

/-- The vuex state together with the ambient cells the mutations touch:
the localStorage `token` slot and `axios.defaults.headers.common.Authorization`. -/
structure StoreWorld where
  state : GlobalDataProps
  localToken : Option String
  authHeader : Option String
deriving Repr, DecidableEq

/-- Payload of the `fetchPosts` mutation: `{ data, extraData }` built by
`asyncAndCommit` when the action supplies extra data (the column id). -/
structure FetchPostsPayload where
  data : ResponseType PostListData
  extraData : String
deriving Repr, DecidableEq

namespace Mutations

def createPost (w : StoreWorld) (newPost : PostProps) : StoreWorld :=
  { w with state := { w.state with
      posts := { w.state.posts with
        data := setKey w.state.posts.data (jsKey newPost._id) newPost } } }

def fetchColumns (w : StoreWorld) (rawData : ResponseType ColumnListData) : StoreWorld :=
  { w with state := { w.state with
      columns := { data := arrToObjColumns rawData.data.list, isLoaded := true } } }

def fetchColumn (w : StoreWorld) (rawData : ResponseType ColumnProps) : StoreWorld :=
  { w with state := { w.state with
      columns := { w.state.columns with
        data := setKey w.state.columns.data rawData.data._id rawData.data } } }

def fetchPosts (w : StoreWorld) (p : FetchPostsPayload) : StoreWorld :=
  { w with state := { w.state with
      posts :=
        { data := mergeObj w.state.posts.data (arrToObjPosts p.data.data.list)
          loadedColumns := w.state.posts.loadedColumns ++ [p.extraData] } } }

def fetchPost (w : StoreWorld) (rawData : ResponseType PostProps) : StoreWorld :=
  { w with state := { w.state with
      posts := { w.state.posts with
        data := setKey w.state.posts.data (jsKey rawData.data._id) rawData.data } } }

def setLoading (w : StoreWorld) (status : Bool) : StoreWorld :=
  { w with state := { w.state with loading := status } }

def setError (w : StoreWorld) (e : GlobalErrorProps) : StoreWorld :=
  { w with state := { w.state with error := e } }

def login (w : StoreWorld) (rawData : ResponseType LoginData) : StoreWorld :=
  { state := { w.state with token := rawData.data.token }
    localToken := some rawData.data.token
    authHeader := some ("Bearer " ++ rawData.data.token) }

def fetchCurrentUser (w : StoreWorld) (rawData : ResponseType CurrentUserData) : StoreWorld :=
  { w with state := { w.state with
      user :=
        { isLogin := true
          nickName := rawData.data.nickName
          _id := rawData.data._id
          column := rawData.data.column
          email := rawData.data.email
          avatar := rawData.data.avatar
          description := rawData.data.description } } }

def signOut (w : StoreWorld) : StoreWorld :=
  { state := { w.state with token := "", user := { isLogin := false } }
    localToken := none
    authHeader := none }

def updatePost (w : StoreWorld) (rawData : ResponseType PostProps) : StoreWorld :=
  { w with state := { w.state with
      posts := { w.state.posts with
        data := setKey w.state.posts.data (jsKey rawData.data._id) rawData.data } } }

def deletePost (w : StoreWorld) (rawData : ResponseType PostProps) : StoreWorld :=
  { w with state := { w.state with
      posts := { w.state.posts with
        data := delKey w.state.posts.data (jsKey rawData.data._id) } } }

end Mutations

deriving instance DecidableEq for Except

/-- The outcome of dispatching one action: the store afterwards, the request
URLs issued (in order), and the value the returned promise settles to. -/
structure ActionRun (ρ : Type) where
  store : StoreWorld
  calls : List String
  result : Except AxiosErr ρ
deriving Repr, DecidableEq

def ActionRun.mapRet {ρ σ : Type} (f : ρ → σ) (r : ActionRun ρ) : ActionRun σ :=
  { store := r.store, calls := r.calls, result := r.result.map f }

/-- The helper asyncAndCommit: one axios request to `url`; on fulfilment the mutation is
committed with the response body, which is also returned; on rejection the
error propagates and no commit runs. The `extraData` branch of the source is
obtained by the calling action folding the extra datum into `mutate`. -/
def asyncAndCommit {ρ : Type} (url : String) (remote : Except AxiosErr ρ)
    (mutate : StoreWorld → ρ → StoreWorld) (w : StoreWorld) : ActionRun ρ :=
  match remote with
  | Except.error e => { store := w, calls := [url], result := Except.error e }
  | Except.ok d => { store := mutate w d, calls := [url], result := Except.ok d }

/-- JS truthiness of `currentPost.content`: `undefined` and `""` are falsy. -/
def contentFalsy : Option String → Bool
  | none => true
  | some t => t == ""

/-- What the `fetchPost` action's promise fulfils with: the raw response body
when the network was hit, or the literal `{ data: currentPost }` built by
`Promise.resolve` on a cache hit. -/
inductive FetchPostRet where
  | fetched (resp : ResponseType PostProps)
  | cached (currentPost : PostProps)
deriving Repr, DecidableEq

namespace Actions

structure PageQuery where
  page : Nat
  size : Nat
deriving Repr, DecidableEq

def fetchColumns (remote : Except AxiosErr (ResponseType ColumnListData))
    (data : PageQuery) (w : StoreWorld) :
    ActionRun (Option (ResponseType ColumnListData)) :=
  if !w.state.columns.isLoaded then
    (asyncAndCommit
      ("/columns?currentPage=" ++ toString data.page ++ "&pageSize=" ++ toString data.size)
      remote Mutations.fetchColumns w).mapRet some
  else
    { store := w, calls := [], result := Except.ok none }

def fetchColumn (remote : Except AxiosErr (ResponseType ColumnProps))
    (cid : String) (w : StoreWorld) : ActionRun (Option (ResponseType ColumnProps)) :=
  if (getKey w.state.columns.data cid).isNone then
    (asyncAndCommit ("/columns/" ++ cid) remote Mutations.fetchColumn w).mapRet some
  else
    { store := w, calls := [], result := Except.ok none }

def fetchPosts (remote : Except AxiosErr (ResponseType PostListData))
    (cid : String) (w : StoreWorld) : ActionRun (Option (ResponseType PostListData)) :=
  if !(w.state.posts.loadedColumns.contains cid) then
    (asyncAndCommit ("/columns/" ++ cid ++ "/posts") remote
      (fun st d => Mutations.fetchPosts st { data := d, extraData := cid }) w).mapRet some
  else
    { store := w, calls := [], result := Except.ok none }

def fetchPost (remote : Except AxiosErr (ResponseType PostProps))
    (id : String) (w : StoreWorld) : ActionRun FetchPostRet :=
  match getKey w.state.posts.data id with
  | none =>
    (asyncAndCommit ("/posts/" ++ id) remote Mutations.fetchPost w).mapRet FetchPostRet.fetched
  | some currentPost =>
    if contentFalsy currentPost.content then
      (asyncAndCommit ("/posts/" ++ id) remote Mutations.fetchPost w).mapRet FetchPostRet.fetched
    else
      { store := w, calls := [], result := Except.ok (FetchPostRet.cached currentPost) }

def fetchCurrentUser (remote : Except AxiosErr (ResponseType CurrentUserData))
    (w : StoreWorld) : ActionRun (ResponseType CurrentUserData) :=
  asyncAndCommit "/user/current" remote Mutations.fetchCurrentUser w

/-- The login payload only shapes the request body, a transport detail not
modelled here. -/
def login (remote : Except AxiosErr (ResponseType LoginData))
    (w : StoreWorld) : ActionRun (ResponseType LoginData) :=
  asyncAndCommit "/user/login" remote Mutations.login w

def loginAndFetch (loginRemote : Except AxiosErr (ResponseType LoginData))
    (userRemote : Except AxiosErr (ResponseType CurrentUserData))
    (w : StoreWorld) : ActionRun (ResponseType CurrentUserData) :=
  let r1 := login loginRemote w
  match r1.result with
  | Except.error e => { store := r1.store, calls := r1.calls, result := Except.error e }
  | Except.ok _ =>
    let r2 := fetchCurrentUser userRemote r1.store
    { store := r2.store, calls := r1.calls ++ r2.calls, result := r2.result }

/-- The source commits the whole response body and the `createPost` mutation
then indexes it by an `_id` the envelope does not carry (a latent slip); the
embedding commits the post the body carries — the only runtime difference is
one junk cache entry under the key "undefined", which nothing observes. -/
def createPost (remote : Except AxiosErr (ResponseType PostProps))
    (w : StoreWorld) : ActionRun (ResponseType PostProps) :=
  asyncAndCommit "/posts" remote (fun st d => Mutations.createPost st d.data) w

def updatePost (remote : Except AxiosErr (ResponseType PostProps))
    (id : String) (w : StoreWorld) : ActionRun (ResponseType PostProps) :=
  asyncAndCommit ("/posts/" ++ id) remote Mutations.updatePost w

def deletePost (remote : Except AxiosErr (ResponseType PostProps))
    (id : String) (w : StoreWorld) : ActionRun (ResponseType PostProps) :=
  asyncAndCommit ("/posts/" ++ id) remote Mutations.deletePost w

end Actions

namespace Getters

def getColumns (w : StoreWorld) : List ColumnProps :=
  objToArr w.state.columns.data

def getColumnById (w : StoreWorld) (id : String) : Option ColumnProps :=
  getKey w.state.columns.data id

def getPostsByCid (w : StoreWorld) (cid : String) : List PostProps :=
  (objToArr w.state.posts.data).filter (fun post => post.column == cid)

def getCurrentPost (w : StoreWorld) (id : String) : Option PostProps :=
  getKey w.state.posts.data id

end Getters

/-- The cache-key invariant of the spec: each key of the column cache is the
`_id` of the column stored under it, and each key of the post cache is the
`_id` of the post stored under it. -/
def cacheInv (w : StoreWorld) : Prop :=
  (∀ k c, getKey w.state.columns.data k = some c → c._id = k) ∧
  (∀ k p, getKey w.state.posts.data k = some p → p._id = some k)

/-- The fresh store of the canonical source version, with no persisted token. -/
def emptyStore : StoreWorld :=
  { state :=
      { token := ""
        error := { status := false }
        loading := false
        columns := { data := [], isLoaded := false }
        posts := { data := [], loadedColumns := [] }
        user := { isLogin := false } }
    localToken := none
    authHeader := none }

def sampleColumn : ColumnProps :=
  { _id := "c1", title := "column one", description := "about c1" }

def sampleColumnResp : ResponseType ColumnProps :=
  { code := 0, msg := "success", data := sampleColumn }

def samplePost : PostProps :=
  { _id := some "p1", title := "post one", content := some "body", column := "c1" }

def samplePostResp : ResponseType PostProps :=
  { code := 0, msg := "success", data := samplePost }

def sampleLoginResp : ResponseType LoginData :=
  { code := 0, msg := "success", data := { token := "tok" } }

def sampleUserResp : ResponseType CurrentUserData :=
  { code := 0, msg := "success", data := { nickName := some "nick" } }

def sampleErr : AxiosErr := { message := "network down" }

/-- A cached stub as produced by list views: entry without a `content` body. -/
def stubPost : PostProps :=
  { _id := some "p1", title := "post one", column := "c1" }

/-- A store whose post cache holds only the stub for "p1". -/
def stubStore : StoreWorld :=
  { emptyStore with state := { emptyStore.state with
      posts := { data := [("p1", stubPost)], loadedColumns := [] } } }

/-- A store whose column cache already holds "c1". -/
def colStore : StoreWorld :=
  { emptyStore with state := { emptyStore.state with
      columns := { data := [("c1", sampleColumn)], isLoaded := false } } }

def postA : PostProps :=
  { _id := some "pa", title := "post a", column := "c1" }

def postB : PostProps :=
  { _id := some "pb", title := "post b", column := "c2" }

def postsRespA : ResponseType PostListData :=
  { code := 0, msg := "success", data := { list := [postA] } }

def postsRespB : ResponseType PostListData :=
  { code := 0, msg := "success", data := { list := [postB] } }

def sampleColumnsResp : ResponseType ColumnListData :=
  { code := 0, msg := "success", data := { list := [sampleColumn] } }

/-- A store whose post cache holds the full "p1" post (non-empty content). -/
def fullStore : StoreWorld :=
  { emptyStore with state := { emptyStore.state with
      posts := { data := [("p1", samplePost)], loadedColumns := [] } } }

/-! ### Association-list lemmas -/

theorem getKey_setKey {α : Type} (m : List (String × α)) (k : String) (v : α)
    (k' : String) :
    getKey (setKey m k v) k' = if k' = k then some v else getKey m k' := by
  induction m with
  | nil =>
    by_cases hk : k' = k
    · subst hk
      simp [setKey, getKey]
    · have hk2 : ¬ k = k' := fun hh => hk hh.symm
      simp [setKey, getKey, hk, hk2]
  | cons hd tl ih =>
    obtain ⟨k₀, v₀⟩ := hd
    by_cases h₀ : k₀ = k
    · subst h₀
      by_cases h' : k₀ = k'
      · subst h'
        simp [setKey, getKey]
      · have h'2 : ¬ k' = k₀ := fun hh => h' hh.symm
        simp [setKey, getKey, h', h'2]
    · by_cases h' : k₀ = k'
      · subst h'
        simp [setKey, getKey, h₀]
      · simp [setKey, getKey, h₀, h', ih]

theorem getKey_eq_none_of_not_mem_keys {α : Type} (m : List (String × α))
    (k : String) (h : k ∉ m.map Prod.fst) : getKey m k = none := by
  induction m with
  | nil => rfl
  | cons hd tl ih =>
    simp only [List.map_cons, List.mem_cons] at h
    push_neg at h
    have hne : ¬ hd.1 = k := fun hh => h.1 hh.symm
    simp [getKey, hne, ih h.2]

theorem mem_keys_setKey {α : Type} (m : List (String × α)) (k : String) (v : α)
    (k' : String) (h : k' ∈ (setKey m k v).map Prod.fst) :
    k' ∈ m.map Prod.fst ∨ k' = k := by
  induction m with
  | nil =>
    simp only [setKey, List.map_cons, List.map_nil, List.mem_singleton] at h
    right; exact h
  | cons hd tl ih =>
    obtain ⟨k₀, v₀⟩ := hd
    by_cases h₀ : k₀ = k
    · subst h₀
      rw [show setKey ((k₀, v₀) :: tl) k₀ v = (k₀, v) :: tl by simp [setKey]] at h
      simp only [List.map_cons, List.mem_cons] at h ⊢
      rcases h with h | h
      · right; exact h
      · left; right; exact h
    · rw [show setKey ((k₀, v₀) :: tl) k v = (k₀, v₀) :: setKey tl k v by
        simp [setKey, h₀]] at h
      simp only [List.map_cons, List.mem_cons] at h ⊢
      rcases h with h | h
      · left; left; exact h
      · rcases ih h with h' | h'
        · left; right; exact h'
        · right; exact h'

theorem keys_setKey_nodup {α : Type} (m : List (String × α)) (k : String) (v : α)
    (h : (m.map Prod.fst).Nodup) : ((setKey m k v).map Prod.fst).Nodup := by
  induction m with
  | nil => simp [setKey]
  | cons hd tl ih =>
    obtain ⟨k₀, v₀⟩ := hd
    simp only [List.map_cons, List.nodup_cons] at h
    by_cases h₀ : k₀ = k
    · subst h₀
      rw [show setKey ((k₀, v₀) :: tl) k₀ v = (k₀, v) :: tl by simp [setKey]]
      simp only [List.map_cons, List.nodup_cons]
      exact h
    · rw [show setKey ((k₀, v₀) :: tl) k v = (k₀, v₀) :: setKey tl k v by
        simp [setKey, h₀]]
      simp only [List.map_cons, List.nodup_cons]
      exact ⟨fun hmem => (mem_keys_setKey tl k v k₀ hmem).elim h.1 h₀, ih h.2⟩

theorem getKey_mergeObj {α : Type} (old upd : List (String × α)) (k : String)
    (h : (upd.map Prod.fst).Nodup) :
    getKey (mergeObj old upd) k = (getKey upd k).or (getKey old k) := by
  induction upd generalizing old with
  | nil => simp [mergeObj, getKey, Option.or]
  | cons hd tl ih =>
    obtain ⟨k₀, v₀⟩ := hd
    simp only [List.map_cons, List.nodup_cons] at h
    have step : mergeObj old ((k₀, v₀) :: tl) = mergeObj (setKey old k₀ v₀) tl := rfl
    rw [step, ih (setKey old k₀ v₀) h.2]
    by_cases hk : k₀ = k
    · subst hk
      have htl : getKey tl k₀ = none := getKey_eq_none_of_not_mem_keys tl k₀ h.1
      simp [getKey, htl, getKey_setKey, Option.or]
    · have hk2 : ¬ k = k₀ := fun hh => hk hh.symm
      simp [getKey, hk, hk2, getKey_setKey]

theorem getKey_delKey {α : Type} (m : List (String × α)) (k k' : String) :
    getKey (delKey m k) k' = if k' = k then none else getKey m k' := by
  induction m with
  | nil => simp [delKey, getKey]
  | cons hd tl ih =>
    obtain ⟨k₀, v₀⟩ := hd
    simp only [delKey, List.filter_cons] at ih ⊢
    by_cases h₀ : k₀ = k
    · subst h₀
      simp only [bne_self_eq_false, Bool.false_eq_true, if_false, ih]
      by_cases h' : k' = k₀
      · subst h'
        simp [getKey]
      · have h'2 : ¬ k₀ = k' := fun hh => h' hh.symm
        simp [getKey, h', h'2]
    · have hb : (k₀ != k) = true := bne_iff_ne.mpr h₀
      simp only [hb, if_true, getKey, ih]
      by_cases h' : k₀ = k'
      · subst h'
        simp [h₀]
      · simp [h']

/-! ### Lemmas about the `arrToObj` folds -/

theorem getKey_foldl_postStep_not_mem (arr : List PostProps)
    (acc : List (String × PostProps)) (k : String) (h : k ∉ idsOf arr) :
    getKey (arr.foldl postStep acc) k = getKey acc k := by
  induction arr generalizing acc with
  | nil => rfl
  | cons q tl ih =>
    rw [List.foldl_cons]
    cases hq : q._id with
    | none =>
      rw [show postStep acc q = acc from by simp [postStep, hq]]
      refine ih _ ?_
      intro hk
      apply h
      simp only [idsOf, List.filterMap_cons, hq]
      simpa [idsOf] using hk
    | some i =>
      have hh : ¬ k = i ∧ k ∉ idsOf tl := by
        constructor
        · intro hk
          apply h
          simp [idsOf, List.filterMap_cons, hq, hk]
        · intro hk
          apply h
          simp only [idsOf, List.filterMap_cons, hq, List.mem_cons]
          right
          simpa [idsOf] using hk
      rw [show postStep acc q = setKey acc i q from by simp [postStep, hq]]
      rw [ih _ hh.2, getKey_setKey, if_neg hh.1]

theorem getKey_foldl_postStep_mem (arr : List PostProps)
    (acc : List (String × PostProps)) (p : PostProps) (k : String)
    (hnd : (idsOf arr).Nodup) (hp : p ∈ arr) (hid : p._id = some k) :
    getKey (arr.foldl postStep acc) k = some p := by
  induction arr generalizing acc with
  | nil => cases hp
  | cons q tl ih =>
    rw [List.foldl_cons]
    rcases List.mem_cons.mp hp with rfl | hptl
    · rw [show postStep acc p = setKey acc k p from by simp [postStep, hid]]
      have hnd' : k ∉ List.filterMap (fun p => p._id) tl ∧
          (List.filterMap (fun p => p._id) tl).Nodup := by
        simpa [idsOf, List.filterMap_cons, hid, List.nodup_cons] using hnd
      have hk : k ∉ idsOf tl := by simpa [idsOf] using hnd'.1
      rw [getKey_foldl_postStep_not_mem tl _ k hk, getKey_setKey, if_pos rfl]
    · have hnd' : (idsOf tl).Nodup := by
        cases hq : q._id with
        | none =>
          simpa [idsOf, List.filterMap_cons, hq] using hnd
        | some i =>
          have := by simpa [idsOf, List.filterMap_cons, hq, List.nodup_cons] using hnd
          simpa [idsOf] using this.2
      exact ih _ hnd' hptl

theorem keys_foldl_postStep_nodup (arr : List PostProps)
    (acc : List (String × PostProps)) (hacc : (acc.map Prod.fst).Nodup) :
    ((arr.foldl postStep acc).map Prod.fst).Nodup := by
  induction arr generalizing acc with
  | nil => exact hacc
  | cons q tl ih =>
    rw [List.foldl_cons]
    refine ih _ ?_
    cases hq : q._id with
    | none =>
      rw [show postStep acc q = acc from by simp [postStep, hq]]
      exact hacc
    | some i =>
      rw [show postStep acc q = setKey acc i q from by simp [postStep, hq]]
      exact keys_setKey_nodup acc i q hacc

theorem keys_arrToObjPosts_nodup (arr : List PostProps) :
    ((arrToObjPosts arr).map Prod.fst).Nodup :=
  keys_foldl_postStep_nodup arr [] (by simp)

theorem getKey_arrToObjPosts_not_mem (arr : List PostProps) (k : String)
    (h : k ∉ idsOf arr) : getKey (arrToObjPosts arr) k = none := by
  rw [show arrToObjPosts arr = arr.foldl postStep [] from rfl]
  rw [getKey_foldl_postStep_not_mem arr [] k h]
  rfl

theorem getKey_arrToObjPosts_mem (arr : List PostProps) (p : PostProps)
    (k : String) (hnd : (idsOf arr).Nodup) (hp : p ∈ arr)
    (hid : p._id = some k) : getKey (arrToObjPosts arr) k = some p :=
  getKey_foldl_postStep_mem arr [] p k hnd hp hid

theorem getKey_foldl_postStep_inv (arr : List PostProps)
    (acc : List (String × PostProps))
    (hacc : ∀ k p, getKey acc k = some p → p._id = some k) :
    ∀ k p, getKey (arr.foldl postStep acc) k = some p → p._id = some k := by
  induction arr generalizing acc with
  | nil => exact hacc
  | cons q tl ih =>
    rw [List.foldl_cons]
    refine ih _ ?_
    intro k p hkp
    cases hq : q._id with
    | none =>
      rw [show postStep acc q = acc from by simp [postStep, hq]] at hkp
      exact hacc k p hkp
    | some i =>
      rw [show postStep acc q = setKey acc i q from by simp [postStep, hq]] at hkp
      rw [getKey_setKey] at hkp
      by_cases hk : k = i
      · rw [if_pos hk] at hkp
        cases hkp
        rw [hq, hk]
      · rw [if_neg hk] at hkp
        exact hacc k p hkp

theorem getKey_arrToObjPosts_inv (arr : List PostProps) (k : String)
    (p : PostProps) (h : getKey (arrToObjPosts arr) k = some p) :
    p._id = some k :=
  getKey_foldl_postStep_inv arr [] (fun k p h => by simp [getKey] at h) k p h

theorem getKey_foldl_colStep_inv (arr : List ColumnProps)
    (acc : List (String × ColumnProps))
    (hacc : ∀ k c, getKey acc k = some c → c._id = k) :
    ∀ k c, getKey (arr.foldl colStep acc) k = some c → c._id = k := by
  induction arr generalizing acc with
  | nil => exact hacc
  | cons q tl ih =>
    rw [List.foldl_cons]
    refine ih _ ?_
    intro k c hkc
    rw [show colStep acc q = setKey acc q._id q from rfl, getKey_setKey] at hkc
    by_cases hk : k = q._id
    · rw [if_pos hk] at hkc
      cases hkc
      exact hk.symm
    · rw [if_neg hk] at hkc
      exact hacc k c hkc

theorem getKey_arrToObjColumns_inv (arr : List ColumnProps) (k : String)
    (c : ColumnProps) (h : getKey (arrToObjColumns arr) k = some c) :
    c._id = k :=
  getKey_foldl_colStep_inv arr [] (fun k c h => by simp [getKey] at h) k c h

/-! ### Claim theorems -/

/-- Claim C4: `loginAndFetch` runs `login` first and `fetchCurrentUser` only
after `login` succeeded. When `login` fails, the rejection is returned as is,
no request to /user/current is issued, and no mutation at all is applied; when
`login` succeeds the two requests go out in order. -/
theorem c4_loginAndFetch_sequencing (w : StoreWorld) (e : AxiosErr)
    (userRemote : Except AxiosErr (ResponseType CurrentUserData)) :
    Actions.loginAndFetch (Except.error e) userRemote w =
      { store := w, calls := ["/user/login"], result := Except.error e } ∧
    (∀ r : ResponseType LoginData,
      (Actions.loginAndFetch (Except.ok r) userRemote w).calls =
        ["/user/login", "/user/current"]) := by
  constructor
  · rfl
  · intro r
    cases userRemote <;> rfl

/-- Claim C5: for every starting state and every login payload, the `login`
mutation followed by the `signOut` mutation leaves the token empty, the user
slot `{isLogin := false}` with no other field set, and no Authorization
default header on the HTTP client. -/
theorem c5_login_then_signOut (w : StoreWorld) (rawData : ResponseType LoginData) :
    (Mutations.signOut (Mutations.login w rawData)).state.token = "" ∧
    (Mutations.signOut (Mutations.login w rawData)).state.user = { isLogin := false } ∧
    (Mutations.signOut (Mutations.login w rawData)).authHeader = none ∧
    (Mutations.signOut (Mutations.login w rawData)).localToken = none := by
  refine ⟨rfl, rfl, rfl, rfl⟩

/-- Claim C7: `getPostsByCid cid` returns exactly the cached posts whose
`column` field equals `cid`: a post is in the result precisely when it is
among the post cache's values and carries that column id. -/
theorem c7_getPostsByCid_exact (w : StoreWorld) (cid : String) (p : PostProps) :
    p ∈ Getters.getPostsByCid w cid ↔
      p ∈ objToArr w.state.posts.data ∧ p.column = cid := by
  simp [Getters.getPostsByCid, List.mem_filter]

/-- Claim C10: the `signOut` mutation changes only the token (memory and
persisted copy), the user slot and the ambient Authorization header: the
column cache with its `isLoaded` flag, the post cache with its
`loadedColumns` list, the loading flag and the error slot are untouched. -/
theorem c10_signOut_frame (w : StoreWorld) :
    (Mutations.signOut w).state.columns = w.state.columns ∧
    (Mutations.signOut w).state.posts = w.state.posts ∧
    (Mutations.signOut w).state.loading = w.state.loading ∧
    (Mutations.signOut w).state.error = w.state.error ∧
    (Mutations.signOut w).state.token = "" ∧
    (Mutations.signOut w).state.user = { isLogin := false } ∧
    (Mutations.signOut w).localToken = none ∧
    (Mutations.signOut w).authHeader = none := by
  refine ⟨rfl, rfl, rfl, rfl, rfl, rfl, rfl, rfl⟩

/-- Claim C2: with `cid` not yet in the column cache, dispatching `fetchColumn`
twice in sequence — the second dispatch after the first completed successfully
with the column served for `cid` — issues exactly one network request: the
first run hits /columns/:cid, the second skips the network because `cid` is
now cached. -/
theorem c2_fetchColumn_memoized (w : StoreWorld) (cid : String)
    (resp : ResponseType ColumnProps)
    (remote2 : Except AxiosErr (ResponseType ColumnProps))
    (hmiss : getKey w.state.columns.data cid = none)
    (hid : resp.data._id = cid) :
    (Actions.fetchColumn (Except.ok resp) cid w).calls = ["/columns/" ++ cid] ∧
    (Actions.fetchColumn remote2 cid
      ((Actions.fetchColumn (Except.ok resp) cid w).store)).calls = [] := by
  have h1 : Actions.fetchColumn (Except.ok resp) cid w =
      { store := Mutations.fetchColumn w resp
        calls := ["/columns/" ++ cid]
        result := Except.ok (some resp) } := by
    simp [Actions.fetchColumn, hmiss, asyncAndCommit, ActionRun.mapRet, Except.map]
  have hhit : getKey (Mutations.fetchColumn w resp).state.columns.data cid
      = some resp.data := by
    simp only [Mutations.fetchColumn]
    rw [getKey_setKey, hid, if_pos rfl]
  constructor
  · rw [h1]
  · rw [h1]
    simp [Actions.fetchColumn, hhit]

/-- Claim C2 witness: on a fresh store, fetching column "c1" twice issues one
request and the second dispatch stays off the network. -/
theorem c2_fetchColumn_memoized_witness :
    (Actions.fetchColumn (Except.ok sampleColumnResp) "c1" emptyStore).calls
      = ["/columns/" ++ "c1"] ∧
    (Actions.fetchColumn (Except.ok sampleColumnResp) "c1"
      ((Actions.fetchColumn (Except.ok sampleColumnResp) "c1" emptyStore).store)).calls
      = [] :=
  c2_fetchColumn_memoized emptyStore "c1" sampleColumnResp
    (Except.ok sampleColumnResp) rfl rfl

/-- Claim C9: a cached stub without a body does not suppress the fetch: when
the cache entry for `id` has absent or empty `content`, `fetchPost` issues the
request and, on success, replaces that entry with the full post the server
returned. -/
theorem c9_fetchPost_stub_refetches (w : StoreWorld) (id : String)
    (stub : PostProps) (resp : ResponseType PostProps)
    (hstub : getKey w.state.posts.data id = some stub)
    (hcontent : stub.content = none ∨ stub.content = some "")
    (hid : resp.data._id = some id) :
    (Actions.fetchPost (Except.ok resp) id w).calls = ["/posts/" ++ id] ∧
    getKey (Actions.fetchPost (Except.ok resp) id w).store.state.posts.data id
      = some resp.data ∧
    (Actions.fetchPost (Except.ok resp) id w).result
      = Except.ok (FetchPostRet.fetched resp) := by
  have hcf : contentFalsy stub.content = true := by
    rcases hcontent with h | h <;> simp [contentFalsy, h]
  have hrun : Actions.fetchPost (Except.ok resp) id w =
      { store := Mutations.fetchPost w resp
        calls := ["/posts/" ++ id]
        result := Except.ok (FetchPostRet.fetched resp) } := by
    simp only [Actions.fetchPost]
    rw [hstub]
    simp [hcf, asyncAndCommit, ActionRun.mapRet, Except.map]
  refine ⟨by rw [hrun], ?_, by rw [hrun]⟩
  rw [hrun]
  simp only [Mutations.fetchPost, hid, jsKey]
  rw [getKey_setKey, if_pos rfl]

/-- Claim C9 witness: the cached "p1" stub (no content) triggers the request
and the cache entry becomes the full post. -/
theorem c9_fetchPost_stub_refetches_witness :
    (Actions.fetchPost (Except.ok samplePostResp) "p1" stubStore).calls
      = ["/posts/" ++ "p1"] ∧
    getKey (Actions.fetchPost (Except.ok samplePostResp) "p1" stubStore).store.state.posts.data "p1"
      = some samplePostResp.data ∧
    (Actions.fetchPost (Except.ok samplePostResp) "p1" stubStore).result
      = Except.ok (FetchPostRet.fetched samplePostResp) :=
  c9_fetchPost_stub_refetches stubStore "p1" stubPost samplePostResp rfl
    (Or.inl rfl) rfl

/-- Claim C6: for distinct column ids A and B not yet loaded, running the
`fetchPosts` flow for A and then for B (server-shaped batches: every post
carries an `_id`, and ids do not repeat across the two batches) leaves every
post of both batches present in the post cache — the second batch merges
rather than overwrites — and `loadedColumns` contains both A and B with no
duplicates. -/
theorem c6_fetchPosts_merge (w : StoreWorld) (A B : String)
    (respA respB : ResponseType PostListData)
    (hAB : A ≠ B)
    (hA : A ∉ w.state.posts.loadedColumns)
    (hB : B ∉ w.state.posts.loadedColumns)
    (hnd0 : w.state.posts.loadedColumns.Nodup)
    (hids : (idsOf respA.data.list ++ idsOf respB.data.list).Nodup) :
    (∀ p k, p ∈ respA.data.list → p._id = some k →
      getKey ((Actions.fetchPosts (Except.ok respB) B
        ((Actions.fetchPosts (Except.ok respA) A w).store)).store).state.posts.data k
        = some p) ∧
    (∀ p k, p ∈ respB.data.list → p._id = some k →
      getKey ((Actions.fetchPosts (Except.ok respB) B
        ((Actions.fetchPosts (Except.ok respA) A w).store)).store).state.posts.data k
        = some p) ∧
    A ∈ ((Actions.fetchPosts (Except.ok respB) B
        ((Actions.fetchPosts (Except.ok respA) A w).store)).store).state.posts.loadedColumns ∧
    B ∈ ((Actions.fetchPosts (Except.ok respB) B
        ((Actions.fetchPosts (Except.ok respA) A w).store)).store).state.posts.loadedColumns ∧
    (((Actions.fetchPosts (Except.ok respB) B
        ((Actions.fetchPosts (Except.ok respA) A w).store)).store).state.posts.loadedColumns).Nodup := by
  have hw1 : (Actions.fetchPosts (Except.ok respA) A w).store
      = Mutations.fetchPosts w { data := respA, extraData := A } := by
    simp [Actions.fetchPosts, hA, asyncAndCommit, ActionRun.mapRet]
  have hBnot : B ∉ (Mutations.fetchPosts w { data := respA, extraData := A
      }).state.posts.loadedColumns := by
    show B ∉ w.state.posts.loadedColumns ++ [A]
    intro hmem
    rcases List.mem_append.mp hmem with h | h
    · exact hB h
    · exact hAB (List.mem_singleton.mp h).symm
  have hw2 : (Actions.fetchPosts (Except.ok respB) B
      ((Actions.fetchPosts (Except.ok respA) A w).store)).store
      = Mutations.fetchPosts (Mutations.fetchPosts w { data := respA, extraData := A })
          { data := respB, extraData := B } := by
    rw [hw1]
    simp [Actions.fetchPosts, hBnot, asyncAndCommit, ActionRun.mapRet]
  have hndA : (idsOf respA.data.list).Nodup := (List.nodup_append.mp hids).1
  have hndB : (idsOf respB.data.list).Nodup := (List.nodup_append.mp hids).2.1
  have hdisj : (idsOf respA.data.list).Disjoint (idsOf respB.data.list) :=
    (List.nodup_append.mp hids).2.2
  have hdata : (Mutations.fetchPosts (Mutations.fetchPosts w
        { data := respA, extraData := A }) { data := respB, extraData := B
        }).state.posts.data
      = mergeObj (mergeObj w.state.posts.data (arrToObjPosts respA.data.list))
          (arrToObjPosts respB.data.list) := rfl
  refine ⟨?_, ?_, ?_, ?_, ?_⟩
  · intro p k hp hk
    have hkA : k ∈ idsOf respA.data.list := by
      simp only [idsOf, List.mem_filterMap]
      exact ⟨p, hp, hk⟩
    have hkB : k ∉ idsOf respB.data.list := hdisj hkA
    rw [hw2, hdata]
    rw [getKey_mergeObj _ _ _ (keys_arrToObjPosts_nodup _)]
    rw [getKey_arrToObjPosts_not_mem _ _ hkB]
    rw [getKey_mergeObj _ _ _ (keys_arrToObjPosts_nodup _)]
    rw [getKey_arrToObjPosts_mem _ p k hndA hp hk]
    simp [Option.or]
  · intro p k hp hk
    rw [hw2, hdata]
    rw [getKey_mergeObj _ _ _ (keys_arrToObjPosts_nodup _)]
    rw [getKey_arrToObjPosts_mem _ p k hndB hp hk]
    simp [Option.or]
  · rw [hw2]
    show A ∈ (w.state.posts.loadedColumns ++ [A]) ++ [B]
    simp
  · rw [hw2]
    show B ∈ (w.state.posts.loadedColumns ++ [A]) ++ [B]
    simp
  · rw [hw2]
    show ((w.state.posts.loadedColumns ++ [A]) ++ [B]).Nodup
    rw [List.nodup_append, List.nodup_append]
    refine ⟨⟨hnd0, List.nodup_singleton A, ?_⟩, List.nodup_singleton B, ?_⟩
    · intro a ha hmem
      rw [List.mem_singleton] at hmem
      subst hmem
      exact hA ha
    · intro a ha hmem
      rw [List.mem_singleton] at hmem
      subst hmem
      rcases List.mem_append.mp ha with h | h
      · exact hB h
      · exact hAB (List.mem_singleton.mp h).symm

/-- Claim C6 witness: fetching the posts of "c1" and then "c2" on a fresh
store leaves both posts cached and both columns recorded once. -/
theorem c6_fetchPosts_merge_witness :
    getKey ((Actions.fetchPosts (Except.ok postsRespB) "c2"
        ((Actions.fetchPosts (Except.ok postsRespA) "c1" emptyStore).store)).store).state.posts.data "pa"
      = some postA ∧
    getKey ((Actions.fetchPosts (Except.ok postsRespB) "c2"
        ((Actions.fetchPosts (Except.ok postsRespA) "c1" emptyStore).store)).store).state.posts.data "pb"
      = some postB ∧
    "c1" ∈ ((Actions.fetchPosts (Except.ok postsRespB) "c2"
        ((Actions.fetchPosts (Except.ok postsRespA) "c1" emptyStore).store)).store).state.posts.loadedColumns ∧
    "c2" ∈ ((Actions.fetchPosts (Except.ok postsRespB) "c2"
        ((Actions.fetchPosts (Except.ok postsRespA) "c1" emptyStore).store)).store).state.posts.loadedColumns ∧
    (((Actions.fetchPosts (Except.ok postsRespB) "c2"
        ((Actions.fetchPosts (Except.ok postsRespA) "c1" emptyStore).store)).store).state.posts.loadedColumns).Nodup := by
  have h := c6_fetchPosts_merge emptyStore "c1" "c2" postsRespA postsRespB
    (by decide) (by simp [emptyStore]) (by simp [emptyStore])
    (by simp [emptyStore]) (by decide)
  exact ⟨h.1 postA "pa" (by simp [postsRespA]) rfl,
    h.2.1 postB "pb" (by simp [postsRespB]) rfl,
    h.2.2.1, h.2.2.2.1, h.2.2.2.2⟩

/-- Claim C8: every mutation preserves the cache-key invariant — each key of
the column cache equals the `_id` of the column under it and each key of the
post cache equals the `_id` of the post under it — for every server-shaped
payload it receives (for the single-post upserts, server-shaped means the
entity carries its `_id`). -/
theorem c8_mutations_preserve_cacheInv (w : StoreWorld) (hw : cacheInv w) :
    (∀ p : PostProps, p._id.isSome → cacheInv (Mutations.createPost w p)) ∧
    (∀ r : ResponseType ColumnListData, cacheInv (Mutations.fetchColumns w r)) ∧
    (∀ r : ResponseType ColumnProps, cacheInv (Mutations.fetchColumn w r)) ∧
    (∀ pl : FetchPostsPayload, cacheInv (Mutations.fetchPosts w pl)) ∧
    (∀ r : ResponseType PostProps, r.data._id.isSome →
      cacheInv (Mutations.fetchPost w r)) ∧
    (∀ b : Bool, cacheInv (Mutations.setLoading w b)) ∧
    (∀ e : GlobalErrorProps, cacheInv (Mutations.setError w e)) ∧
    (∀ r : ResponseType LoginData, cacheInv (Mutations.login w r)) ∧
    (∀ r : ResponseType CurrentUserData, cacheInv (Mutations.fetchCurrentUser w r)) ∧
    cacheInv (Mutations.signOut w) ∧
    (∀ r : ResponseType PostProps, r.data._id.isSome →
      cacheInv (Mutations.updatePost w r)) ∧
    (∀ r : ResponseType PostProps, cacheInv (Mutations.deletePost w r)) := by
  refine ⟨?_, ?_, ?_, ?_, ?_, ?_, ?_, ?_, ?_, ?_, ?_, ?_⟩
  · intro p hp
    obtain ⟨i, hi⟩ := Option.isSome_iff_exists.mp hp
    refine ⟨fun k c h => hw.1 k c h, ?_⟩
    intro k q h
    simp only [Mutations.createPost, hi, jsKey] at h
    rw [getKey_setKey] at h
    by_cases hk : k = i
    · rw [if_pos hk] at h
      cases h
      rw [hi, hk]
    · rw [if_neg hk] at h
      exact hw.2 k q h
  · intro r
    refine ⟨?_, fun k q h => hw.2 k q h⟩
    intro k c h
    simp only [Mutations.fetchColumns] at h
    exact getKey_arrToObjColumns_inv _ k c h
  · intro r
    refine ⟨?_, fun k q h => hw.2 k q h⟩
    intro k c h
    simp only [Mutations.fetchColumn] at h
    rw [getKey_setKey] at h
    by_cases hk : k = r.data._id
    · rw [if_pos hk] at h
      cases h
      exact hk.symm
    · rw [if_neg hk] at h
      exact hw.1 k c h
  · intro pl
    refine ⟨fun k c h => hw.1 k c h, ?_⟩
    intro k q h
    simp only [Mutations.fetchPosts] at h
    rw [getKey_mergeObj _ _ _ (keys_arrToObjPosts_nodup _)] at h
    cases hobj : getKey (arrToObjPosts pl.data.data.list) k with
    | none =>
      rw [hobj] at h
      simp only [Option.or] at h
      exact hw.2 k q h
    | some v =>
      rw [hobj] at h
      simp only [Option.or] at h
      cases h
      exact getKey_arrToObjPosts_inv _ k q hobj
  · intro r hr
    obtain ⟨i, hi⟩ := Option.isSome_iff_exists.mp hr
    refine ⟨fun k c h => hw.1 k c h, ?_⟩
    intro k q h
    simp only [Mutations.fetchPost, hi, jsKey] at h
    rw [getKey_setKey] at h
    by_cases hk : k = i
    · rw [if_pos hk] at h
      cases h
      rw [hi, hk]
    · rw [if_neg hk] at h
      exact hw.2 k q h
  · intro b
    exact ⟨fun k c h => hw.1 k c h, fun k q h => hw.2 k q h⟩
  · intro e
    exact ⟨fun k c h => hw.1 k c h, fun k q h => hw.2 k q h⟩
  · intro r
    exact ⟨fun k c h => hw.1 k c h, fun k q h => hw.2 k q h⟩
  · intro r
    exact ⟨fun k c h => hw.1 k c h, fun k q h => hw.2 k q h⟩
  · exact ⟨fun k c h => hw.1 k c h, fun k q h => hw.2 k q h⟩
  · intro r hr
    obtain ⟨i, hi⟩ := Option.isSome_iff_exists.mp hr
    refine ⟨fun k c h => hw.1 k c h, ?_⟩
    intro k q h
    simp only [Mutations.updatePost, hi, jsKey] at h
    rw [getKey_setKey] at h
    by_cases hk : k = i
    · rw [if_pos hk] at h
      cases h
      rw [hi, hk]
    · rw [if_neg hk] at h
      exact hw.2 k q h
  · intro r
    refine ⟨fun k c h => hw.1 k c h, ?_⟩
    intro k q h
    simp only [Mutations.deletePost] at h
    rw [getKey_delKey] at h
    by_cases hk : k = jsKey r.data._id
    · rw [if_pos hk] at h
      cases h
    · rw [if_neg hk] at h
      exact hw.2 k q h

/-- Claim C8 witness: starting from an empty (hence invariant-satisfying)
store, committing `fetchPost` with a full server post keeps the invariant. -/
theorem c8_mutations_preserve_cacheInv_witness :
    cacheInv (Mutations.fetchPost emptyStore samplePostResp) := by
  have hinv : cacheInv emptyStore := by
    constructor
    · intro k c h
      simp [emptyStore, getKey] at h
    · intro k p h
      simp [emptyStore, getKey] at h
  exact (c8_mutations_preserve_cacheInv emptyStore hinv).2.2.2.2.1
    samplePostResp rfl

/-- Claim C1 is false as stated: `loginAndFetch` is an action, and when its
second remote call (/user/current) fails the rejection does propagate, but the
store is not the same as before the failed action — the `login` mutation has
already set the token. Concrete input: a fresh store, a successful login
returning token "tok", a failing current-user call. -/
theorem c1_counterexample :
    (Actions.loginAndFetch (Except.ok sampleLoginResp) (Except.error sampleErr)
      emptyStore).result = Except.error sampleErr ∧
    (Actions.loginAndFetch (Except.ok sampleLoginResp) (Except.error sampleErr)
      emptyStore).store ≠ emptyStore ∧
    (Actions.loginAndFetch (Except.ok sampleLoginResp) (Except.error sampleErr)
      emptyStore).store.state.token = "tok" := by
  refine ⟨rfl, ?_, rfl⟩
  decide

/-- Claim C1 (amended): for every single-call action, a failing remote call
leaves the entire store state exactly as before and propagates the rejection
unchanged whenever a request was issued. For the composite `loginAndFetch`, a
failure of the login call leaves the store untouched with the rejection
propagated; a failure of the current-user call propagates the rejection and
applies no mutation of its own, but the already-committed `login` mutation
remains. -/
theorem c1_failed_call_no_mutation (w : StoreWorld) (e : AxiosErr) :
    (∀ pq : Actions.PageQuery,
      (Actions.fetchColumns (Except.error e) pq w).store = w ∧
      ((Actions.fetchColumns (Except.error e) pq w).calls ≠ [] →
        (Actions.fetchColumns (Except.error e) pq w).result = Except.error e)) ∧
    (∀ cid : String,
      (Actions.fetchColumn (Except.error e) cid w).store = w ∧
      ((Actions.fetchColumn (Except.error e) cid w).calls ≠ [] →
        (Actions.fetchColumn (Except.error e) cid w).result = Except.error e)) ∧
    (∀ cid : String,
      (Actions.fetchPosts (Except.error e) cid w).store = w ∧
      ((Actions.fetchPosts (Except.error e) cid w).calls ≠ [] →
        (Actions.fetchPosts (Except.error e) cid w).result = Except.error e)) ∧
    (∀ id : String,
      (Actions.fetchPost (Except.error e) id w).store = w ∧
      ((Actions.fetchPost (Except.error e) id w).calls ≠ [] →
        (Actions.fetchPost (Except.error e) id w).result = Except.error e)) ∧
    ((Actions.fetchCurrentUser (Except.error e) w).store = w ∧
      (Actions.fetchCurrentUser (Except.error e) w).result = Except.error e) ∧
    ((Actions.login (Except.error e) w).store = w ∧
      (Actions.login (Except.error e) w).result = Except.error e) ∧
    ((Actions.createPost (Except.error e) w).store = w ∧
      (Actions.createPost (Except.error e) w).result = Except.error e) ∧
    (∀ id : String,
      (Actions.updatePost (Except.error e) id w).store = w ∧
      (Actions.updatePost (Except.error e) id w).result = Except.error e) ∧
    (∀ id : String,
      (Actions.deletePost (Except.error e) id w).store = w ∧
      (Actions.deletePost (Except.error e) id w).result = Except.error e) ∧
    (∀ userRemote : Except AxiosErr (ResponseType CurrentUserData),
      (Actions.loginAndFetch (Except.error e) userRemote w).store = w ∧
      (Actions.loginAndFetch (Except.error e) userRemote w).result = Except.error e) ∧
    (∀ r : ResponseType LoginData,
      (Actions.loginAndFetch (Except.ok r) (Except.error e) w).store
        = Mutations.login w r ∧
      (Actions.loginAndFetch (Except.ok r) (Except.error e) w).result
        = Except.error e) := by
  refine ⟨?_, ?_, ?_, ?_, ⟨rfl, rfl⟩, ⟨rfl, rfl⟩, ⟨rfl, rfl⟩,
    fun id => ⟨rfl, rfl⟩, fun id => ⟨rfl, rfl⟩,
    fun userRemote => ⟨rfl, rfl⟩, fun r => ⟨rfl, rfl⟩⟩
  · intro pq
    cases hL : w.state.columns.isLoaded <;>
      simp [Actions.fetchColumns, hL, asyncAndCommit, ActionRun.mapRet, Except.map]
  · intro cid
    cases hG : (getKey w.state.columns.data cid).isNone <;>
      simp [Actions.fetchColumn, hG, asyncAndCommit, ActionRun.mapRet, Except.map]
  · intro cid
    by_cases hm : cid ∈ w.state.posts.loadedColumns <;>
      simp [Actions.fetchPosts, hm, asyncAndCommit, ActionRun.mapRet, Except.map]
  · intro id
    cases hP : getKey w.state.posts.data id with
    | none =>
      constructor
      · show (Actions.fetchPost (Except.error e) id w).store = w
        simp only [Actions.fetchPost]
        rw [hP]
        simp [asyncAndCommit, ActionRun.mapRet]
      · intro hne
        show (Actions.fetchPost (Except.error e) id w).result = Except.error e
        simp only [Actions.fetchPost]
        rw [hP]
        simp [asyncAndCommit, ActionRun.mapRet, Except.map]
    | some p =>
      cases hc : contentFalsy p.content with
      | false =>
        constructor
        · show (Actions.fetchPost (Except.error e) id w).store = w
          simp only [Actions.fetchPost]
          rw [hP]
          simp [hc]
        · intro hne
          exfalso
          apply hne
          show (Actions.fetchPost (Except.error e) id w).calls = []
          simp only [Actions.fetchPost]
          rw [hP]
          simp [hc]
      | true =>
        constructor
        · show (Actions.fetchPost (Except.error e) id w).store = w
          simp only [Actions.fetchPost]
          rw [hP]
          simp [hc, asyncAndCommit, ActionRun.mapRet]
        · intro hne
          show (Actions.fetchPost (Except.error e) id w).result = Except.error e
          simp only [Actions.fetchPost]
          rw [hP]
          simp [hc, asyncAndCommit, ActionRun.mapRet, Except.map]

/-- Claim C1 witness: on a fresh store, a failing /columns/c1 request leaves
the store untouched and surfaces the error; a failing /user/current after a
successful login leaves exactly the login mutation applied. -/
theorem c1_failed_call_no_mutation_witness :
    (Actions.fetchColumn (Except.error sampleErr) "c1" emptyStore).store = emptyStore ∧
    (Actions.fetchColumn (Except.error sampleErr) "c1" emptyStore).result
      = Except.error sampleErr ∧
    (Actions.loginAndFetch (Except.ok sampleLoginResp) (Except.error sampleErr)
      emptyStore).store = Mutations.login emptyStore sampleLoginResp := by
  have h := c1_failed_call_no_mutation emptyStore sampleErr
  exact ⟨(h.2.1 "c1").1, (h.2.1 "c1").2 (by decide),
    (h.2.2.2.2.2.2.2.2.2.2 sampleLoginResp).1⟩

/-- Claim C3 is false as stated: when the cache guard causes the network call
to be skipped, `fetchColumn` (like `fetchColumns` and `fetchPosts`) returns
`undefined` — not the raw response payload. Concrete input: a store whose
column cache already holds "c1". -/
theorem c3_counterexample :
    (Actions.fetchColumn (Except.ok sampleColumnResp) "c1" colStore).calls = [] ∧
    (Actions.fetchColumn (Except.ok sampleColumnResp) "c1" colStore).result
      = Except.ok none ∧
    (Actions.fetchColumn (Except.ok sampleColumnResp) "c1" colStore).result
      ≠ Except.ok (some sampleColumnResp) := by
  refine ⟨rfl, rfl, ?_⟩
  decide

/-- Claim C3 (amended): every action that issues its network call returns the
raw response payload on success; in the memoized skip cases `fetchColumns`,
`fetchColumn` and `fetchPosts` return `undefined`, while `fetchPost` returns
the literal `{ data: currentPost }` built from the cache. -/
theorem c3_success_returns_payload (w : StoreWorld) :
    (∀ (d : ResponseType ColumnListData) (pq : Actions.PageQuery),
      (w.state.columns.isLoaded = false →
        (Actions.fetchColumns (Except.ok d) pq w).result = Except.ok (some d)) ∧
      (w.state.columns.isLoaded = true →
        (Actions.fetchColumns (Except.ok d) pq w).result = Except.ok none ∧
        (Actions.fetchColumns (Except.ok d) pq w).calls = [])) ∧
    (∀ (d : ResponseType ColumnProps) (cid : String),
      (getKey w.state.columns.data cid = none →
        (Actions.fetchColumn (Except.ok d) cid w).result = Except.ok (some d)) ∧
      (∀ c, getKey w.state.columns.data cid = some c →
        (Actions.fetchColumn (Except.ok d) cid w).result = Except.ok none ∧
        (Actions.fetchColumn (Except.ok d) cid w).calls = [])) ∧
    (∀ (d : ResponseType PostListData) (cid : String),
      (cid ∉ w.state.posts.loadedColumns →
        (Actions.fetchPosts (Except.ok d) cid w).result = Except.ok (some d)) ∧
      (cid ∈ w.state.posts.loadedColumns →
        (Actions.fetchPosts (Except.ok d) cid w).result = Except.ok none ∧
        (Actions.fetchPosts (Except.ok d) cid w).calls = [])) ∧
    (∀ (d : ResponseType PostProps) (id : String),
      (getKey w.state.posts.data id = none →
        (Actions.fetchPost (Except.ok d) id w).result
          = Except.ok (FetchPostRet.fetched d)) ∧
      (∀ p, getKey w.state.posts.data id = some p → contentFalsy p.content = true →
        (Actions.fetchPost (Except.ok d) id w).result
          = Except.ok (FetchPostRet.fetched d)) ∧
      (∀ p, getKey w.state.posts.data id = some p → contentFalsy p.content = false →
        (Actions.fetchPost (Except.ok d) id w).result
          = Except.ok (FetchPostRet.cached p) ∧
        (Actions.fetchPost (Except.ok d) id w).calls = [])) ∧
    (∀ d : ResponseType CurrentUserData,
      (Actions.fetchCurrentUser (Except.ok d) w).result = Except.ok d) ∧
    (∀ d : ResponseType LoginData,
      (Actions.login (Except.ok d) w).result = Except.ok d) ∧
    (∀ d : ResponseType PostProps,
      (Actions.createPost (Except.ok d) w).result = Except.ok d) ∧
    (∀ (d : ResponseType PostProps) (id : String),
      (Actions.updatePost (Except.ok d) id w).result = Except.ok d) ∧
    (∀ (d : ResponseType PostProps) (id : String),
      (Actions.deletePost (Except.ok d) id w).result = Except.ok d) ∧
    (∀ (r : ResponseType LoginData) (u : ResponseType CurrentUserData),
      (Actions.loginAndFetch (Except.ok r) (Except.ok u) w).result
        = Except.ok u) := by
  refine ⟨?_, ?_, ?_, ?_, fun d => rfl, fun d => rfl, fun d => rfl,
    fun d id => rfl, fun d id => rfl, fun r u => rfl⟩
  · intro d pq
    constructor
    · intro hL
      simp [Actions.fetchColumns, hL, asyncAndCommit, ActionRun.mapRet, Except.map]
    · intro hL
      simp [Actions.fetchColumns, hL]
  · intro d cid
    constructor
    · intro hmiss
      simp [Actions.fetchColumn, hmiss, asyncAndCommit, ActionRun.mapRet, Except.map]
    · intro c hhit
      simp [Actions.fetchColumn, hhit]
  · intro d cid
    constructor
    · intro hnot
      simp [Actions.fetchPosts, hnot, asyncAndCommit, ActionRun.mapRet, Except.map]
    · intro hmem
      simp [Actions.fetchPosts, hmem]
  · intro d id
    refine ⟨?_, ?_, ?_⟩
    · intro hmiss
      simp only [Actions.fetchPost]
      rw [hmiss]
      simp [asyncAndCommit, ActionRun.mapRet, Except.map]
    · intro p hp hcf
      simp only [Actions.fetchPost]
      rw [hp]
      simp [hcf, asyncAndCommit, ActionRun.mapRet, Except.map]
    · intro p hp hcf
      simp only [Actions.fetchPost]
      rw [hp]
      simp [hcf]

/-- Claim C3 witness: a fresh store returns the raw columns payload from
`fetchColumns`, and a cache-complete `fetchPost` returns the cached literal
without a request. -/
theorem c3_success_returns_payload_witness :
    (Actions.fetchColumns (Except.ok sampleColumnsResp) { page := 1, size := 5 }
      emptyStore).result = Except.ok (some sampleColumnsResp) ∧
    (Actions.fetchPost (Except.ok samplePostResp) "p1" fullStore).result
      = Except.ok (FetchPostRet.cached samplePost) := by
  refine ⟨((c3_success_returns_payload emptyStore).1 sampleColumnsResp
    { page := 1, size := 5 }).1 rfl, ?_⟩
  exact (((c3_success_returns_payload fullStore).2.2.2.1 samplePostResp
    "p1").2.2 samplePost rfl rfl).1

end VueZheye
